import Mathlib

/-!
Shallow embedding of the response-normalization engine of the brand-scraper
front-end (`src/app/page.tsx`), together with theorems settling the frozen
claims about it.

JavaScript values flowing through the engine are JSON-like: `null`, booleans,
numbers, strings, arrays and objects.  We model them with the inductive type
`Json` below.  JavaScript `undefined` (absent key, property access on a
primitive) is collapsed to `Json.null`: the engine only ever observes the two
through `!x` / `x ?? d` / `typeof`-style tests, which do not separate them.
JSON numbers are modelled exactly as mantissa/decimal-exponent pairs
(`Json.num m e` denotes `m * 10 ^ e`); the engine never does arithmetic on
them, it only tests `typeof x === 'number'` and passes them through.
-/

set_option maxRecDepth 40000

namespace BrandScraper

/-- JSON/JavaScript value universe used by the normalization engine. -/
inductive Json where
  | null : Json
  | bool : Bool → Json
  | num  : Int → Int → Json
  | str  : String → Json
  | arr  : List Json → Json
  | obj  : List (String × Json) → Json
deriving Inhabited

/-- First-match association-list lookup (JSON.parse below deduplicates keys,
so objects built by the parser have unique keys, as JavaScript objects do). -/
def lookupKV : List (String × Json) → String → Option Json
  | [], _ => none
  | (k', v) :: rest, k => if k' = k then some v else lookupKV rest k

/-- JavaScript property access `x?.[k]` / `x[k]`: `null` for a missing key and
for access on a non-object (both are `undefined` in JavaScript, collapsed to
`Json.null` here). -/
def Json.getField (j : Json) (k : String) : Json :=
  match j with
  | .obj kvs => match lookupKV kvs k with
    | some v => v
    | none => .null
  | _ => .null

/-- JavaScript `'k' in x` for the shapes the engine applies it to (`false` on
arrays and primitives, key-presence on objects). -/
def Json.hasKey (j : Json) (k : String) : Bool :=
  match j with
  | .obj kvs => (lookupKV kvs k).isSome
  | _ => false

/-- JavaScript truthiness of a JSON-representable value (`NaN` cannot be
produced by `JSON.parse`; `m * 10 ^ e = 0` iff `m = 0`, covering `-0`). -/
def Json.truthy : Json → Bool
  | .null => false
  | .bool b => b
  | .num m _ => decide (m ≠ 0)
  | .str s => decide (s ≠ "")
  | .arr _ => true
  | .obj _ => true

/-- `typeof x === 'number'`. -/
def Json.isNum : Json → Bool
  | .num _ _ => true
  | _ => false

/-- `x === null` (also standing for `undefined`, see the collapse above). -/
def Json.isNull : Json → Bool
  | .null => true
  | _ => false

/-- `Array.isArray x`. -/
def Json.isArr : Json → Bool
  | .arr _ => true
  | _ => false

/-- `x && typeof x === 'object' && !Array.isArray(x)`: a truthy plain object. -/
def Json.isObj : Json → Bool
  | .obj _ => true
  | _ => false

-- ── Character/string helpers ────────────────────────────────────────────────

/-- Left brace character (written via its code point). -/
def lbrace : Char := Char.ofNat 123

/-- Right brace character (written via its code point). -/
def rbrace : Char := Char.ofNat 125

/-- Backtick character (written via its code point). -/
def btick : Char := Char.ofNat 96

/-- The whitespace characters recognized by the string trimming and JSON
grammar used here (space, tab, line feed, carriage return).  JavaScript's
`String.prototype.trim` also strips some rarer Unicode whitespace; the inputs
the engine handles are modelled over this ASCII set. -/
def isWs (c : Char) : Bool := c = ' ' || c = '\t' || c = '\n' || c = '\r'

/-- `s.trim()` over the modelled whitespace set. -/
def jsTrim (s : String) : String :=
  String.mk (((s.data.dropWhile isWs).reverse.dropWhile isWs).reverse)

/-- `s.toLowerCase()` (per-character lowering; the engine only compares the
result against ASCII literals such as `"verified"`). -/
def jsToLower (s : String) : String :=
  String.mk (s.data.map Char.toLower)

-- ── JSON.parse ──────────────────────────────────────────────────────────────

/-- Numeric value of a run of decimal digits. -/
def digitsToNat (ds : List Char) : Nat :=
  ds.foldl (fun a c => a * 10 + (c.toNat - 48)) 0

/-- Hexadecimal digit value, for `\uXXXX` escapes. -/
def hexVal (c : Char) : Option Nat :=
  if c.isDigit then some (c.toNat - 48)
  else if 'a' ≤ c ∧ c ≤ 'f' then some (c.toNat - 87)
  else if 'A' ≤ c ∧ c ≤ 'F' then some (c.toNat - 55)
  else none

/-- Body of a JSON string literal, after the opening quote: returns the decoded
string and the input remaining after the closing quote.  Unescaped control
characters are rejected, escapes are `\" \\ \/ \b \f \n \r \t \uXXXX`,
mirroring the JSON grammar `JSON.parse` implements. -/
def parseJStr : Nat → List Char → List Char → Option (String × List Char)
  | 0, _, _ => none
  | _ + 1, [], _ => none
  | fuel + 1, c :: rest, acc =>
    if c = '"' then some (String.mk acc.reverse, rest)
    else if c = '\\' then
      match rest with
      | [] => none
      | e :: r2 =>
        if e = '"' then parseJStr fuel r2 ('"' :: acc)
        else if e = '\\' then parseJStr fuel r2 ('\\' :: acc)
        else if e = '/' then parseJStr fuel r2 ('/' :: acc)
        else if e = 'b' then parseJStr fuel r2 (Char.ofNat 8 :: acc)
        else if e = 'f' then parseJStr fuel r2 (Char.ofNat 12 :: acc)
        else if e = 'n' then parseJStr fuel r2 ('\n' :: acc)
        else if e = 'r' then parseJStr fuel r2 ('\r' :: acc)
        else if e = 't' then parseJStr fuel r2 ('\t' :: acc)
        else if e = 'u' then
          match r2 with
          | h1 :: h2 :: h3 :: h4 :: r3 =>
            match hexVal h1, hexVal h2, hexVal h3, hexVal h4 with
            | some a, some b, some c3, some d =>
              parseJStr fuel r3 (Char.ofNat (((a * 16 + b) * 16 + c3) * 16 + d) :: acc)
            | _, _, _, _ => none
          | _ => none
        else none
    else if c.toNat < 32 then none
    else parseJStr fuel rest (c :: acc)

/-- A JSON number token (grammar `-?(0|[1-9][0-9]*)(\.[0-9]+)?([eE][+-]?[0-9]+)?`),
returned as mantissa and decimal exponent together with the remaining input. -/
def parseNum (cs : List Char) : Option (Json × List Char) :=
  let negAnd := match cs with
    | c :: r => if c = '-' then (true, r) else (false, cs)
    | [] => (false, cs)
  let neg := negAnd.1
  let cs1 := negAnd.2
  match cs1 with
  | [] => none
  | c :: r =>
    if ¬ c.isDigit then none
    else
      let intPart := if c = '0' then ([c], r)
        else (c :: r.takeWhile Char.isDigit, r.dropWhile Char.isDigit)
      let intDs := intPart.1
      let rest1 := intPart.2
      let fracPart : Option (List Char × List Char) := match rest1 with
        | '.' :: r2 =>
          let ds := r2.takeWhile Char.isDigit
          if ds.isEmpty then none else some (ds, r2.dropWhile Char.isDigit)
        | _ => some ([], rest1)
      match fracPart with
      | none => none
      | some (fracDs, rest2) =>
        let expPart : Option (Int × List Char) := match rest2 with
          | e :: r3 =>
            if e = 'e' ∨ e = 'E' then
              let signAnd : Int × List Char := match r3 with
                | s :: r5 => if s = '+' then (1, r5) else if s = '-' then (-1, r5) else (1, r3)
                | [] => (1, r3)
              let eds := signAnd.2.takeWhile Char.isDigit
              if eds.isEmpty then none
              else some (signAnd.1 * (digitsToNat eds : Int), signAnd.2.dropWhile Char.isDigit)
            else some (0, rest2)
          | [] => some (0, rest2)
        match expPart with
        | none => none
        | some (ex, rest3) =>
          let mant : Int := (digitsToNat (intDs ++ fracDs) : Int)
          let mant := if neg then -mant else mant
          some (.num mant (ex - fracDs.length), rest3)

/-- Insert a key/value pair, overwriting an existing key in place: later
duplicate keys win, as in `JSON.parse`. -/
def insertKV : List (String × Json) → String → Json → List (String × Json)
  | [], k, v => [(k, v)]
  | (k', v') :: rest, k, v =>
    if k' = k then (k', v) :: rest else (k', v') :: insertKV rest k v

mutual

/-- Recursive-descent JSON value parser (the model of `JSON.parse`): returns
the value and the remaining input.  Fuel only bounds recursion depth for
termination; `jsonParse` supplies enough for any input. -/
def parseVal : Nat → List Char → Option (Json × List Char)
  | 0, _ => none
  | fuel + 1, cs0 =>
    let cs := cs0.dropWhile isWs
    match cs with
    | [] => none
    | c :: rest =>
      if c = 'n' then
        if rest.take 3 = ['u', 'l', 'l'] then some (.null, rest.drop 3) else none
      else if c = 't' then
        if rest.take 3 = ['r', 'u', 'e'] then some (.bool true, rest.drop 3) else none
      else if c = 'f' then
        if rest.take 4 = ['a', 'l', 's', 'e'] then some (.bool false, rest.drop 4) else none
      else if c = '"' then
        (parseJStr (rest.length + 1) rest []).map (fun p => (.str p.1, p.2))
      else if c = '[' then
        let cs2 := rest.dropWhile isWs
        match cs2 with
        | ']' :: r2 => some (.arr [], r2)
        | _ => (parseArrItems fuel rest).map (fun p => (.arr p.1, p.2))
      else if c = lbrace then
        let cs2 := rest.dropWhile isWs
        match cs2 with
        | c2 :: r2 =>
          if c2 = rbrace then some (.obj [], r2)
          else (parseObjItems fuel rest).map
            (fun p => (.obj (p.1.foldl (fun a kv => insertKV a kv.1 kv.2) []), p.2))
        | [] => none
      else if c = '-' ∨ c.isDigit then parseNum cs
      else none

/-- Comma-separated JSON values up to a closing bracket. -/
def parseArrItems : Nat → List Char → Option (List Json × List Char)
  | 0, _ => none
  | fuel + 1, cs =>
    (parseVal fuel cs).bind fun p =>
      match p.2.dropWhile isWs with
      | ',' :: r2 => (parseArrItems fuel r2).map (fun q => (p.1 :: q.1, q.2))
      | ']' :: r2 => some ([p.1], r2)
      | _ => none

/-- Comma-separated JSON object members up to a closing brace. -/
def parseObjItems : Nat → List Char → Option (List (String × Json) × List Char)
  | 0, _ => none
  | fuel + 1, cs =>
    match cs.dropWhile isWs with
    | '"' :: rest =>
      (parseJStr (rest.length + 1) rest []).bind fun kp =>
        match kp.2.dropWhile isWs with
        | ':' :: r2 =>
          (parseVal fuel r2).bind fun vp =>
            match vp.2.dropWhile isWs with
            | ',' :: r4 => (parseObjItems fuel r4).map (fun q => ((kp.1, vp.1) :: q.1, q.2))
            | c :: r4 => if c = rbrace then some ([(kp.1, vp.1)], r4) else none
            | [] => none
        | _ => none
    | _ => none

end

/-- `JSON.parse s` as a total function: `some v` on success, `none` where
`JSON.parse` throws (leftover input after a value also fails, as in JS). -/
def jsonParse (s : String) : Option Json :=
  match parseVal (2 * s.length + 2) s.data with
  | some (v, rest) => if rest.dropWhile isWs = [] then some v else none
  | none => none

-- ── tryParseString (page.tsx lines 115-131) ─────────────────────────────────

/-- Consume a three-backtick fence, returning the rest of the input. -/
def isTicks3 : List Char → Option (List Char)
  | c1 :: c2 :: c3 :: rest =>
    if c1 = btick ∧ c2 = btick ∧ c3 = btick then some rest else none
  | _ => none

/-- Regex `\s` character class (ASCII part: space, tab, LF, CR, VT, FF). -/
def isRegexWs (c : Char) : Bool :=
  c = ' ' || c = '\t' || c = '\n' || c = '\r' || c = Char.ofNat 11 || c = Char.ofNat 12

/-- Scan for the closing part `\n?(three backticks)` of the code-block regex:
returns the shortest (lazy `[\s\S]*?`) capture prefix after which the closing
matches, preferring to consume a newline before the fence (greedy `\n?`). -/
def findClose : List Char → Option (List Char)
  | [] => none
  | c :: rest =>
    if c = '\n' ∧ (isTicks3 rest).isSome then some []
    else if (isTicks3 (c :: rest)).isSome then some []
    else (findClose rest).map (c :: ·)

/-- Whether the code-block regex matches starting exactly here, and with which
group-1 capture.  The greedy `(?:json)?` and maximal `\s*` choices are taken
directly: backtracking them cannot turn an overall failure into a success,
because shrinking them only moves the capture start leftwards over characters
that contain no backtick, leaving the same closing fences reachable. -/
def fenceMatchAt (cs : List Char) : Option String :=
  (isTicks3 cs).bind fun r0 =>
    let r1 := if r0.take 4 = ['j', 's', 'o', 'n'] then r0.drop 4 else r0
    (findClose (r1.dropWhile isRegexWs)).map String.mk

/-- Group 1 of the first (leftmost) match of the markdown code-block regex
used by `tryParseString`. -/
def fenceCapture : List Char → Option String
  | [] => none
  | c :: rest =>
    match fenceMatchAt (c :: rest) with
    | some cap => some cap
    | none => fenceCapture rest

/-- First suffix of the input starting with a left brace or bracket
(`trimmed.search(/[{\[]/)` followed by `trimmed.slice(jsonStart)`). -/
def braceSuffix : List Char → Option (List Char)
  | [] => none
  | c :: rest => if c = lbrace ∨ c = '[' then some (c :: rest) else braceSuffix rest

/-- Parse the substring from the first brace/bracket to the end, the third
strategy of `tryParseString`; `Json.null` when that fails too (the function's
`return null`). -/
def afterBrace (cs : List Char) : Json :=
  match braceSuffix cs with
  | none => .null
  | some suf =>
    match jsonParse (String.mk suf) with
    | some v => v
    | none => .null

/-- `tryParseString` (page.tsx 115-131): try a direct `JSON.parse` of the
trimmed string, then the contents of a markdown code block, then the substring
from the first brace/bracket.  A `null` result signals failure to the caller —
note that a *successful* parse yielding JSON `null` is returned as is and is
therefore indistinguishable from failure, exactly as in the source, whose
return type is `unknown | null`. -/
def tryParseString (s : String) : Json :=
  if s = "" then .null
  else
    let trimmed := jsTrim s
    match jsonParse trimmed with
    | some v => v
    | none =>
      match fenceCapture trimmed.data with
      | some cap =>
        if cap = "" then afterBrace trimmed.data
        else
          match jsonParse (jsTrim cap) with
          | some v => v
          | none => afterBrace trimmed.data
      | none => afterBrace trimmed.data

-- ── resolveValue (page.tsx 134-141) ─────────────────────────────────────────

/-- Recursion core of `resolveValue`, structured on the remaining resolution
budget (the source recurses on `depth + 1` guarded by `depth > 5`; with
`fuel = 6 - depth` that recursion is structural).  Zero budget returns the
value unchanged — the `depth > 5` guard. -/
def resolveGo : Nat → Json → Json
  | 0, v => v
  | fuel + 1, .str s =>
    let parsed := tryParseString s
    if parsed.isNull then .str s else resolveGo fuel parsed
  | _ + 1, v => v

/-- `resolveValue` (page.tsx 134-141): repeatedly parse a string value as JSON
(up to the depth guard); non-strings and unparseable strings are returned
unchanged.  The source's default argument is `depth = 0`; callers here always
pass the depth explicitly. -/
def resolveValue (val : Json) (depth : Nat) : Json :=
  resolveGo (6 - depth) val

/-- Sanity equation: `resolveValue` satisfies the source's recursion verbatim —
at `depth > 5` the value is returned unchanged, a parseable string resolves
recursively at `depth + 1`, anything else is returned unchanged. -/
theorem resolveValue_eq (val : Json) (depth : Nat) :
    resolveValue val depth =
      if depth > 5 then val
      else
        match val with
        | .str s =>
          let parsed := tryParseString s
          if parsed.isNull then .str s else resolveValue parsed (depth + 1)
        | v => v := by
  unfold resolveValue
  rcases Nat.lt_or_ge 5 depth with h | h
  · have h6 : 6 - depth = 0 := by omega
    rw [h6]
    simp [resolveGo, h]
  · have h6 : 6 - depth = (5 - depth) + 1 := by omega
    have h7 : 6 - (depth + 1) = 5 - depth := by omega
    rw [h6, h7]
    have hnot : ¬ depth > 5 := by omega
    simp only [if_neg hnot]
    cases val <;> simp [resolveGo]

-- ── mapChatGPTResult (page.tsx 144-176) ─────────────────────────────────────

/-- Decimal rendering of `m * 10 ^ e` for JavaScript stringification of
numbers (used only inside `Array.prototype.join`).  Trailing fractional zeros
are dropped, matching how `JSON.parse` would have produced the same float. -/
def stripZeroGo : Int → Nat → Int × Nat
  | m, 0 => (m, 0)
  | m, k + 1 => if m % 10 = 0 ∧ m ≠ 0 then stripZeroGo (m / 10) k else (m, k + 1)

/-- String form of the number `m * 10 ^ e` (plain decimal notation). -/
def numToString (m : Int) (e : Int) : String :=
  if m = 0 then "0"
  else if 0 ≤ e then toString (m * 10 ^ e.toNat)
  else
    let p := stripZeroGo m (-e).toNat
    if p.2 = 0 then toString p.1
    else
      let a := p.1.natAbs
      let fpStr := toString (a % 10 ^ p.2)
      (if p.1 < 0 then "-" else "") ++ toString (a / 10 ^ p.2) ++ "." ++
        String.mk (List.replicate (p.2 - fpStr.length) '0') ++ fpStr

/-- JavaScript `String(x)` for JSON-representable `x` (arrays stringify as
their elements joined by commas, with null elements blank; objects as
`[object Object]`). -/
def jsToString (j : Json) : String :=
  match j with
  | .null => "null"
  | .bool b => if b then "true" else "false"
  | .num m e => numToString m e
  | .str s => s
  | .obj _ => "[object Object]"
  | .arr l =>
    String.intercalate "," (l.attach.map fun x => if x.1.isNull then "" else jsToString x.1)
termination_by sizeOf j
decreasing_by
  have hm := List.sizeOf_lt_of_mem x.2
  simp only [Json.arr.sizeOf_spec]
  omega

/-- `x ?? ''` after an `as string` cast: the cast is erased at runtime, so
only `null`/`undefined` are replaced by the empty string — any other value
passes through unchanged. -/
def orEmptyStr (v : Json) : Json :=
  match v with
  | .null => .str ""
  | v => v

/-- `mapChatGPTResult` (page.tsx 144-176): map an alternate "verified site"
record onto the canonical Brand shape.  `Except.error ()` models the
`TypeError` thrown by `confidence?.toLowerCase()` when `confidence` is
neither a string nor nullish (optional chaining only guards
`null`/`undefined`; a number has no `toLowerCase`). -/
def mapChatGPTResultE (r : Json) : Except Unit Json :=
  let wd := r.getField "website_details"
  let sm := wd.getField "social_media"
  match r.getField "confidence" with
  | .bool _ | .num _ _ | .arr _ | .obj _ => .error ()
  | c =>
    let status := match c with
      | .str s => if jsToLower s = "verified" then "Complete" else "Partial"
      | _ => "Partial"
    .ok (.obj [
      ("brand_name", orEmptyStr (r.getField "brand_name")),
      ("website_url", match r.getField "selected_official_website" with
        | .null => orEmptyStr (r.getField "official_website_turkey")
        | v => v),
      ("website_scope", orEmptyStr (r.getField "website_scope")),
      ("confidence", orEmptyStr (r.getField "confidence")),
      ("verification_notes", orEmptyStr (r.getField "verification_notes")),
      ("logo_url", orEmptyStr (wd.getField "logo_url")),
      ("founded_year", orEmptyStr (wd.getField "founded_year")),
      ("about_summary", .str ""),
      ("about_page_link", orEmptyStr (wd.getField "about_page_link")),
      ("product_category", match wd.getField "product_categories" with
        | .arr l =>
          .str (String.intercalate ", " (l.map fun x => if x.isNull then "" else jsToString x))
        | v => orEmptyStr v),
      ("social_media", .obj [
        ("twitter", orEmptyStr (sm.getField "twitter")),
        ("linkedin", orEmptyStr (sm.getField "linkedin")),
        ("instagram", orEmptyStr (sm.getField "instagram")),
        ("facebook", orEmptyStr (sm.getField "facebook")),
        ("youtube", orEmptyStr (sm.getField "youtube")),
        ("tiktok", orEmptyStr (sm.getField "tiktok")),
        ("pinterest", orEmptyStr (sm.getField "pinterest"))]),
      ("contact_info", .obj [
        ("email", orEmptyStr (wd.getField "contact_email")),
        ("phone", orEmptyStr (wd.getField "contact_phone")),
        ("hq_address", .str "")]),
      ("status", .str status)])

-- ── findBrandsInObject (page.tsx 182-244) ───────────────────────────────────

/-- `val.map(mapChatGPTResult)`: element order preserved, the first thrown
`TypeError` aborts the whole map. -/
def mapME : List Json → Except Unit (List Json)
  | [] => .ok []
  | x :: xs =>
    match mapChatGPTResultE x with
    | .error e => .error e
    | .ok y =>
      match mapME xs with
      | .error e => .error e
      | .ok ys => .ok (y :: ys)

/-- The array branch of `findBrandsInObject`: accept the array itself exactly
when it is non-empty and its first element is a (non-null, non-array) object
with a `brand_name` key; otherwise `null`. -/
def arrCheck : List Json → Option (List Json)
  | Json.obj kvs :: rest =>
    if (lookupKV kvs "brand_name").isSome then some (Json.obj kvs :: rest) else none
  | _ => none

/-- The `brands` / `results` standard-key branch of `findBrandsInObject`:
`some` means the branch returns (the list as-is, the Schema-Mapper image, or a
thrown `TypeError`); `none` means fall through to the next probe. -/
def stdKeyCheck (kvs : List (String × Json)) (key : String) :
    Option (Except Unit (List Json)) :=
  match resolveValue ((Json.obj kvs).getField key) 0 with
  | Json.arr (first :: restl) =>
    match first with
    | Json.obj fkvs =>
      if (lookupKV fkvs "brand_name").isSome then some (.ok (first :: restl))
      else if (lookupKV fkvs "website_details").isSome
          ∨ (lookupKV fkvs "selected_official_website").isSome then
        some (mapME (first :: restl))
      else none
    | _ => none
  | _ => none

/-- Recursion core of `findBrandsInObject`, structured on the remaining depth
budget (`fuel = 5 - depth`; the source guard `depth > 4` is the zero-budget
case).  `Except.error` is a propagating `TypeError` from the Schema Mapper,
`ok none` is the source's `null`. -/
def findGo : Nat → Json → Except Unit (Option (List Json))
  | 0, _ => .ok none
  | _ + 1, Json.arr l => .ok (arrCheck l)
  | fuel + 1, Json.obj kvs =>
    match stdKeyCheck kvs "brands" with
    | some (Except.error e) => .error e
    | some (Except.ok l) => .ok (some l)
    | none =>
    match stdKeyCheck kvs "results" with
    | some (Except.error e) => .error e
    | some (Except.ok l) => .ok (some l)
    | none =>
    match (match lookupKV kvs "text" with
           | some (Json.str s) =>
             let parsed := tryParseString s
             if parsed.truthy then findGo fuel parsed else .ok none
           | _ => .ok none) with
    | Except.error e => .error e
    | Except.ok (some l) => .ok (some l)
    | Except.ok none =>
    match (match lookupKV kvs "result" with
           | some v => findGo fuel (resolveValue v 0)
           | none => .ok none) with
    | Except.error e => .error e
    | Except.ok (some l) => .ok (some l)
    | Except.ok none =>
    match (match lookupKV kvs "response" with
           | some v => findGo fuel (resolveValue v 0)
           | none => .ok none) with
    | Except.error e => .error e
    | Except.ok (some l) => .ok (some l)
    | Except.ok none =>
    match (match lookupKV kvs "data" with
           | some v => findGo fuel (resolveValue v 0)
           | none => .ok none) with
    | Except.error e => .error e
    | Except.ok (some l) => .ok (some l)
    | Except.ok none => .ok none
  | _ + 1, _ => .ok none

/-- `findBrandsInObject` (page.tsx 182-244): search a value for a brands
array, via the array shape-check, the `brands`/`results` keys, an embedded
JSON `text` field, and the `result`/`response`/`data` container keys.  The
source's default argument is `depth = 0`; callers pass it explicitly here. -/
def findBrandsInObject (obj : Json) (depth : Nat) : Except Unit (Option (List Json)) :=
  findGo (5 - depth) obj

-- ── parseAgentResponse (page.tsx 246-280) ───────────────────────────────────

/-- The guard `x && x.length > 0` around each strategy result: `some` exactly
when the extractor returned a non-empty list. -/
def hit : Option (List Json) → Option (List Json)
  | some l => if l.length > 0 then some l else none
  | none => none

/-- Strategy 5 of the orchestrator (page.tsx 268-274): accept the resolved
`response.result` itself when it is a non-empty array whose first element is
a non-null object carrying `brand_name`. -/
def strat5core (resultData : Json) : Option (List Json) :=
  match resultData with
  | Json.arr (first :: restl) =>
    if first.hasKey "brand_name" then some (first :: restl) else none
  | _ => none

/-- The body of `parseAgentResponse`'s `try` block: the five strategies with
their early returns.  A propagating `TypeError` (only the Schema Mapper can
throw) surfaces as `Except.error`. -/
def parseAgentResponseE (r : Json) : Except Unit (List Json) :=
  let resultData := resolveValue ((r.getField "response").getField "result") 0
  match findBrandsInObject resultData 0 with
  | .error e => .error e
  | .ok o1 =>
  match hit o1 with
  | some l => .ok l
  | none =>
  match findBrandsInObject (r.getField "response") 0 with
  | .error e => .error e
  | .ok o2 =>
  match hit o2 with
  | some l => .ok l
  | none =>
  match findBrandsInObject r 0 with
  | .error e => .error e
  | .ok o3 =>
  match hit o3 with
  | some l => .ok l
  | none =>
  match (if (r.getField "raw_response").truthy then
           findBrandsInObject (resolveValue (r.getField "raw_response") 0) 0
         else .ok none) with
  | .error e => .error e
  | .ok o4 =>
  match hit o4 with
  | some l => .ok l
  | none =>
  .ok (match strat5core resultData with
       | some l => l
       | none => [])

/-- `parseAgentResponse` (page.tsx 246-280): the five extraction strategies in
order inside a `try`, with `catch` returning the empty list. -/
def parseAgentResponse (r : Json) : List Json :=
  match parseAgentResponseE r with
  | .ok l => l
  | .error _ => []

/-- The hypothetical orchestrator with strategy 5 removed (claim C9's
comparison point): identical to `parseAgentResponseE` except that the final
`response.result`-as-array check is replaced by the bare `return []`. -/
def parseAgentResponseNoS5E (r : Json) : Except Unit (List Json) :=
  let resultData := resolveValue ((r.getField "response").getField "result") 0
  match findBrandsInObject resultData 0 with
  | .error e => .error e
  | .ok o1 =>
  match hit o1 with
  | some l => .ok l
  | none =>
  match findBrandsInObject (r.getField "response") 0 with
  | .error e => .error e
  | .ok o2 =>
  match hit o2 with
  | some l => .ok l
  | none =>
  match findBrandsInObject r 0 with
  | .error e => .error e
  | .ok o3 =>
  match hit o3 with
  | some l => .ok l
  | none =>
  match (if (r.getField "raw_response").truthy then
           findBrandsInObject (resolveValue (r.getField "raw_response") 0) 0
         else .ok none) with
  | .error e => .error e
  | .ok o4 =>
  match hit o4 with
  | some l => .ok l
  | none => .ok []

/-- The strategy-5-free orchestrator, wrapped in the same `try`/`catch`. -/
def parseAgentResponseNoS5 (r : Json) : List Json :=
  match parseAgentResponseNoS5E r with
  | .ok l => l
  | .error _ => []

-- ── parseResponseMeta (page.tsx 282-341) ────────────────────────────────────

/-- The `{ total, complete, partial }` record returned by `parseResponseMeta`.
The fields stay in the value universe: the source's `as number` casts are
erased at runtime, so a non-numeric `complete_count`/`partial_count` flows
into the record unchanged. -/
structure Meta where
  total : Json
  complete : Json
  partCount : Json

/-- `x ?? 0` on a count field: only `null`/`undefined` are replaced by 0. -/
def nullishTo0 (j : Json) : Json :=
  match j with
  | .null => .num 0 0
  | v => v

/-- The meta record read off an object with a numeric `total_brands`. -/
def metaOf (p : Json) : Meta :=
  ⟨p.getField "total_brands",
   nullishTo0 (p.getField "complete_count"),
   nullishTo0 (p.getField "partial_count")⟩

/-- One iteration of `parseResponseMeta`'s candidate loop: skip non-objects,
then probe the embedded `text` JSON, the candidate itself, and the resolved
nested `result`, in that order, returning at the first numeric
`total_brands`. -/
def processCand (c : Json) : Option Meta :=
  match c with
  | Json.obj kvs =>
    let textProbe : Option Meta :=
      match lookupKV kvs "text" with
      | some (Json.str s) =>
        let parsed := tryParseString s
        if parsed.truthy ∧ parsed.isObj then
          if (parsed.getField "total_brands").isNum then some (metaOf parsed) else none
        else none
      | _ => none
    match textProbe with
    | some m => some m
    | none =>
      if ((Json.obj kvs).getField "total_brands").isNum then some (metaOf (Json.obj kvs))
      else
        match lookupKV kvs "result" with
        | some rv =>
          let inner := resolveValue rv 0
          if inner.truthy ∧ inner.isObj then
            if (inner.getField "total_brands").isNum then some (metaOf inner) else none
          else none
        | none => none
  | _ => none

/-- The ordered candidate list built at the top of `parseResponseMeta`. -/
def metaCandidates (r : Json) : List Json :=
  [resolveValue ((r.getField "response").getField "result") 0,
   r.getField "response",
   r] ++
  (if (r.getField "raw_response").truthy then [resolveValue (r.getField "raw_response") 0] else [])

/-- The candidate `for` loop of `parseResponseMeta`. -/
def metaLoop : List Json → Meta
  | [] => ⟨.num 0 0, .num 0 0, .num 0 0⟩
  | c :: rest =>
    match processCand c with
    | some m => m
    | none => metaLoop rest

/-- `parseResponseMeta` (page.tsx 282-341).  Nothing inside its `try` can
throw — `tryParseString` and `resolveValue` swallow their parse errors and
the Schema Mapper is never invoked — so the `catch` arm is not represented. -/
def parseResponseMeta (r : Json) : Meta :=
  metaLoop (metaCandidates r)

-- ── exportCSV (page.tsx 343-401) ────────────────────────────────────────────

/-- The fixed social-media channel slots of a Brand record.  Fields are
`Option String`: `none` models a structurally absent value (`undefined`),
which the exporter reaches through optional chaining. -/
structure SocialMedia where
  twitter : Option String
  linkedin : Option String
  instagram : Option String
  facebook : Option String
  youtube : Option String
  tiktok : Option String
  pinterest : Option String

/-- Contact slots of a Brand record. -/
structure ContactInfo where
  email : Option String
  phone : Option String
  hq_address : Option String

/-- The canonical Brand record (page.tsx 64-78), with every field optional to
model runtime absence (the TypeScript interface declares plain strings, but
records reach the exporter through unchecked casts and are accessed there
with `b?.` / `?? `-style guards). -/
structure Brand where
  brand_name : Option String
  website_url : Option String
  website_scope : Option String
  confidence : Option String
  verification_notes : Option String
  logo_url : Option String
  founded_year : Option String
  about_summary : Option String
  about_page_link : Option String
  product_category : Option String
  social_media : Option SocialMedia
  contact_info : Option ContactInfo
  status : Option String

/-- The CSV header row (page.tsx 344-366). -/
def csvHeaders : List String :=
  ["Brand Name", "Category", "Website", "Website Scope", "Confidence",
   "Verification Notes", "Logo URL", "Founded Year", "About Summary",
   "About Page", "Twitter", "LinkedIn", "Instagram", "Facebook", "YouTube",
   "TikTok", "Pinterest", "Email", "Phone", "HQ Address", "Status"]

/-- The 21 projections building one row (page.tsx 367-389), in column order;
`b?.social_media?.twitter` is the `Option.bind` chain. -/
def brandFields (b : Brand) : List (Option String) :=
  [b.brand_name, b.product_category, b.website_url, b.website_scope,
   b.confidence, b.verification_notes, b.logo_url, b.founded_year,
   b.about_summary, b.about_page_link,
   b.social_media.bind SocialMedia.twitter,
   b.social_media.bind SocialMedia.linkedin,
   b.social_media.bind SocialMedia.instagram,
   b.social_media.bind SocialMedia.facebook,
   b.social_media.bind SocialMedia.youtube,
   b.social_media.bind SocialMedia.tiktok,
   b.social_media.bind SocialMedia.pinterest,
   b.contact_info.bind ContactInfo.email,
   b.contact_info.bind ContactInfo.phone,
   b.contact_info.bind ContactInfo.hq_address,
   b.status]

/-- `(v || '')`: an absent value and the empty string both render empty; any
other string renders as itself. -/
def jsOrEmpty : Option String → String
  | none => ""
  | some s => s

/-- `s.replace(/"/g, '""')`: double every double-quote character. -/
def csvEscape (s : String) : String :=
  String.mk (s.data.foldr (fun c acc => if c = '"' then '"' :: '"' :: acc else c :: acc) [])

/-- The string built by `exportCSV` (page.tsx 343-401): header row plus one
row per Brand, each field quote-wrapped with internal quotes doubled, joined
by commas and newlines.  The surrounding Blob/anchor download plumbing is
browser I/O and is not part of the model. -/
def exportCSV (brands : List Brand) : String :=
  String.intercalate "\n"
    (String.intercalate "," csvHeaders ::
      brands.map fun b =>
        String.intercalate ","
          ((brandFields b).map fun v => "\"" ++ csvEscape (jsOrEmpty v) ++ "\""))

-- ── parseBrandText (page.tsx 92-110) ────────────────────────────────────────

/-- JavaScript `text.split(/[\n,]/)`: split at every newline or comma,
keeping empty pieces. -/
def jsSplitGo (p : Char → Bool) : List Char → List Char → List String
  | [], acc => [String.mk acc.reverse]
  | c :: rest, acc =>
    if p c then String.mk acc.reverse :: jsSplitGo p rest []
    else jsSplitGo p rest (c :: acc)

/-- Split a string at separator characters, JavaScript-`split` style. -/
def jsSplit (p : Char → Bool) (s : String) : List String :=
  jsSplitGo p s.data []

/-- `line.replace(/['"]/g, '')`: remove every single and double quote. -/
def removeQuotes (s : String) : String :=
  String.mk (s.data.filter fun c => ¬ (c = '"' ∨ c = '\''))

/-- `l.replace(/^["']|["']$/g, '')`: strip one leading and one trailing quote
character (single or double). -/
def stripEdgeQuotes (s : String) : String :=
  let isQ : Char → Bool := fun c => c = '"' || c = '\''
  let l1 := match s.data with
    | c :: rest => if isQ c then rest else c :: rest
    | [] => []
  let l2 := match l1.reverse with
    | c :: rest => if isQ c then rest.reverse else l1
    | [] => l1
  String.mk l2

/-- `parseBrandText` (page.tsx 92-110): split the pasted text on newlines and
commas, trim, drop blanks, drop case-insensitive header-looking tokens
(compared with all quotes removed), then strip one layer of edge quotes,
re-trim and drop blanks again. -/
def parseBrandText (text : String) : List String :=
  let lines := ((jsSplit (fun c => c = '\n' || c = ',') text).map jsTrim).filter
    fun l => decide (0 < l.length)
  let filtered := lines.filter fun line =>
    let lower := removeQuotes (jsToLower line)
    decide (lower ≠ "brand" ∧ lower ≠ "name" ∧ lower ≠ "brand_name" ∧
            lower ≠ "brand name" ∧ lower ≠ "company" ∧ lower ≠ "company name")
  (filtered.map fun l => jsTrim (stripEdgeQuotes l)).filter fun l => decide (0 < l.length)

-- ── Claim-side auxiliary definitions ────────────────────────────────────────

/-- Escape quotes and backslashes, the character part of JSON string
encoding. -/
def escChars (cs : List Char) : List Char :=
  cs.foldr
    (fun c acc =>
      if c = '"' then '\\' :: '"' :: acc
      else if c = '\\' then '\\' :: '\\' :: acc
      else c :: acc) []

/-- JSON string-encode: wrap in quotes, escaping quotes and backslashes (the
inverse direction of one level of `JSON.parse` on a string literal).  Used to
build concretely nested test inputs for the Value Resolver claims. -/
def wrapQ (s : String) : String :=
  "\"" ++ String.mk (escChars s.data) ++ "\""

/-- The claim's array-acceptance condition: non-empty with a first element
that is an object containing the key `brand_name`. -/
def firstHasBrandName : List Json → Bool
  | Json.obj kvs :: _ => (lookupKV kvs "brand_name").isSome
  | _ => false

-- ── Shared lemmas ───────────────────────────────────────────────────────────

/-- Within the depth guard, `findBrandsInObject` on an array reduces to the
array shape-check. -/
theorem findBrandsInObject_arr (l : List Json) (d : Nat) (h : d ≤ 4) :
    findBrandsInObject (Json.arr l) d = .ok (arrCheck l) := by
  unfold findBrandsInObject
  have h5 : 5 - d = (4 - d) + 1 := by omega
  rw [h5]
  simp [findGo]

/-- The array shape-check in terms of the claim-side condition. -/
theorem arrCheck_eq (l : List Json) :
    arrCheck l = if firstHasBrandName l then some l else none := by
  cases l with
  | nil => rfl
  | cons f rest =>
    cases f <;> simp [arrCheck, firstHasBrandName]

/-- When strategy 5 would accept the resolved `response.result`, strategy 1's
extractor already accepts the same (non-empty) array. -/
theorem strat5core_sub (d : Json) (l : List Json) (h : strat5core d = some l) :
    findBrandsInObject d 0 = .ok (some l) ∧ l ≠ [] := by
  cases d with
  | arr l0 =>
    cases l0 with
    | nil => exact absurd h (by simp [strat5core])
    | cons f rest =>
      simp only [strat5core] at h
      cases hk : f.hasKey "brand_name" with
      | false => rw [hk] at h; simp at h
      | true =>
        rw [hk] at h
        simp at h
        cases f <;> simp [Json.hasKey] at hk
        case obj kvs =>
        subst h
        refine ⟨?_, by simp⟩
        rw [findBrandsInObject_arr _ 0 (by omega)]
        simp [arrCheck, hk]
  | null => exact absurd h (by simp [strat5core])
  | bool b => exact absurd h (by simp [strat5core])
  | num m e => exact absurd h (by simp [strat5core])
  | str s => exact absurd h (by simp [strat5core])
  | obj kvs => exact absurd h (by simp [strat5core])

-- ── Round-trip lemmas for wrapQ (used by the C2/C5 nesting examples) ────────

/-- Rebuilding a string from its character data is the identity. -/
theorem string_mk_data (s : String) : String.mk s.data = s := by
  cases s
  rfl

/-- Character data of a `wrapQ` encoding: a quote, the escaped characters,
a quote. -/
theorem wrapQ_data (s : String) :
    (wrapQ s).data = '"' :: (escChars s.data ++ ['"']) := by
  simp [wrapQ]

/-- Escaping cannot shorten a character list. -/
theorem escChars_length (cs : List Char) : cs.length ≤ (escChars cs).length := by
  induction cs with
  | nil => simp [escChars]
  | cons c cs ih =>
    by_cases hq : c = '"'
    · simp [escChars, hq] at ih ⊢
      omega
    · by_cases hb : c = '\\'
      · simp [escChars, hq, hb] at ih ⊢
        omega
      · simp [escChars, hq, hb] at ih ⊢
        omega

/-- Every character of an escaped list is an original character or a
backslash or a quote. -/
theorem mem_escChars (cs : List Char) (c : Char) (h : c ∈ escChars cs) :
    c ∈ cs ∨ c = '\\' ∨ c = '"' := by
  induction cs with
  | nil => simp [escChars] at h
  | cons a cs ih =>
    by_cases hq : a = '"'
    · simp [escChars, hq] at h
      rcases h with h | h | h
      · exact Or.inr (Or.inl h)
      · exact Or.inr (Or.inr h)
      · rcases ih h with h2 | h2 | h2
        · exact Or.inl (List.mem_cons_of_mem _ h2)
        · exact Or.inr (Or.inl h2)
        · exact Or.inr (Or.inr h2)
    · by_cases hb : a = '\\'
      · simp [escChars, hq, hb] at h
        rcases h with h | h
        · exact Or.inr (Or.inl h)
        · rcases ih h with h2 | h2 | h2
          · exact Or.inl (List.mem_cons_of_mem _ h2)
          · exact Or.inr (Or.inl h2)
          · exact Or.inr (Or.inr h2)
      · simp [escChars, hq, hb] at h
        rcases h with h | h
        · exact Or.inl (by simp [h])
        · rcases ih h with h2 | h2 | h2
          · exact Or.inl (List.mem_cons_of_mem _ h2)
          · exact Or.inr (Or.inl h2)
          · exact Or.inr (Or.inr h2)

/-- `wrapQ` preserves the no-control-characters invariant. -/
theorem clean_wrapQ (s : String) (h : ∀ c ∈ s.data, 32 ≤ c.toNat) :
    ∀ c ∈ (wrapQ s).data, 32 ≤ c.toNat := by
  intro c hc
  rw [wrapQ_data] at hc
  simp at hc
  rcases hc with hc | hc | hc
  · rw [hc]; decide
  · rcases mem_escChars _ _ hc with h2 | h2 | h2
    · exact h c h2
    · rw [h2]; decide
    · rw [h2]; decide
  · rw [hc]; decide

/-- The JSON string-body parser decodes an escaped character list followed by
a closing quote, for characters with no control codes. -/
theorem parseJStr_esc (cs : List Char) : ∀ (fuel : Nat) (acc rest : List Char),
    (∀ c ∈ cs, 32 ≤ c.toNat) → cs.length < fuel →
    parseJStr fuel (escChars cs ++ '"' :: rest) acc =
      some (String.mk (acc.reverse ++ cs), rest) := by
  induction cs with
  | nil =>
    intro fuel acc rest _ hf
    match fuel, hf with
    | fuel + 1, _ => simp [escChars, parseJStr]
  | cons c cs ih =>
    intro fuel acc rest hcl hf
    match fuel, hf with
    | fuel + 1, hf =>
      have hcs : ∀ x ∈ cs, 32 ≤ x.toNat := fun x hx => hcl x (List.mem_cons_of_mem _ hx)
      have hfl : cs.length < fuel := by
        simp at hf
        omega
      by_cases hq : c = '"'
      · subst hq
        have he : escChars ('"' :: cs) = '\\' :: '"' :: escChars cs := rfl
        rw [he]
        simp only [List.cons_append]
        rw [show parseJStr (fuel + 1) ('\\' :: '"' :: (escChars cs ++ '"' :: rest)) acc =
              parseJStr fuel (escChars cs ++ '"' :: rest) ('"' :: acc) by simp [parseJStr]]
        rw [ih fuel ('"' :: acc) rest hcs hfl]
        simp
      · by_cases hb : c = '\\'
        · subst hb
          have he : escChars ('\\' :: cs) = '\\' :: '\\' :: escChars cs := rfl
          rw [he]
          simp only [List.cons_append]
          rw [show parseJStr (fuel + 1) ('\\' :: '\\' :: (escChars cs ++ '"' :: rest)) acc =
                parseJStr fuel (escChars cs ++ '"' :: rest) ('\\' :: acc) by simp [parseJStr]]
          rw [ih fuel ('\\' :: acc) rest hcs hfl]
          simp
        · have h32 : 32 ≤ c.toNat := hcl c (List.mem_cons_self _ _)
          have he : escChars (c :: cs) = c :: escChars cs := by
            simp [escChars, hq, hb]
          rw [he]
          simp only [List.cons_append]
          rw [show parseJStr (fuel + 1) (c :: (escChars cs ++ '"' :: rest)) acc =
                parseJStr fuel (escChars cs ++ '"' :: rest) (c :: acc) by
              simp [parseJStr, hq, hb, Nat.not_lt.mpr h32]]
          rw [ih fuel (c :: acc) rest hcs hfl]
          simp

/-- `parseVal` on a quote-headed input hands over to the string-body
parser. -/
theorem parseVal_quote (fuel : Nat) (rest : List Char) :
    parseVal (fuel + 1) ('"' :: rest) =
      Option.map (fun p => (Json.str p.1, p.2)) (parseJStr (rest.length + 1) rest []) := rfl

/-- `JSON.parse` inverts `wrapQ` on control-free strings. -/
theorem jsonParse_wrapQ (s : String) (h : ∀ c ∈ s.data, 32 ≤ c.toNat) :
    jsonParse (wrapQ s) = some (Json.str s) := by
  unfold jsonParse
  have hfuel : 2 * (wrapQ s).length + 2 = (2 * (wrapQ s).length + 1) + 1 := by omega
  rw [hfuel, wrapQ_data, parseVal_quote]
  have hlen : s.data.length < (escChars s.data ++ ['"']).length + 1 := by
    rw [List.length_append]
    have h2 := escChars_length s.data
    simp only [List.length_cons, List.length_nil]
    omega
  have hbody := parseJStr_esc s.data ((escChars s.data ++ ['"']).length + 1) [] [] h hlen
  rw [show escChars s.data ++ ['"'] = escChars s.data ++ '"' :: [] from rfl] at hbody ⊢
  rw [hbody]
  simp [string_mk_data]

/-- A `wrapQ` encoding is non-empty and has no surrounding whitespace, so the
Value Resolver's trim leaves it unchanged. -/
theorem jsTrim_wrapQ (s : String) : jsTrim (wrapQ s) = wrapQ s := by
  unfold jsTrim
  rw [wrapQ_data]
  have h1 : List.dropWhile isWs ('"' :: (escChars s.data ++ ['"'])) =
      '"' :: (escChars s.data ++ ['"']) := rfl
  rw [h1]
  have h2 : ('"' :: (escChars s.data ++ ['"'])).reverse =
      '"' :: ((escChars s.data).reverse ++ ['"']) := by simp
  rw [h2]
  have h3 : List.dropWhile isWs ('"' :: ((escChars s.data).reverse ++ ['"'])) =
      '"' :: ((escChars s.data).reverse ++ ['"']) := rfl
  rw [h3]
  have h4 : ('"' :: ((escChars s.data).reverse ++ ['"'])).reverse =
      '"' :: (escChars s.data ++ ['"']) := by simp
  rw [h4, ← wrapQ_data, string_mk_data]

/-- `tryParseString` directly parses a `wrapQ` encoding back to the encoded
string. -/
theorem tryParseString_wrapQ (s : String) (h : ∀ c ∈ s.data, 32 ≤ c.toNat) :
    tryParseString (wrapQ s) = Json.str s := by
  have hne : wrapQ s ≠ "" := by
    intro he
    have h2 := congrArg String.data he
    rw [wrapQ_data] at h2
    exact List.noConfusion h2
  unfold tryParseString
  rw [if_neg hne]
  simp only [jsTrim_wrapQ, jsonParse_wrapQ s h]

/-- Iterated `wrapQ` encodings of `"0"` stay control-free. -/
theorem clean_iterWrap (k : Nat) :
    ∀ c ∈ (Nat.iterate wrapQ k "0").data, 32 ≤ c.toNat := by
  induction k with
  | zero =>
    intro c hc
    simp [Nat.iterate] at hc
    rw [hc]
    decide
  | succ n ih =>
    rw [Function.iterate_succ_apply']
    exact clean_wrapQ _ ih

/-- The Value Resolver unwraps exactly `fuel` encoding levels from an
iterated `wrapQ` nesting (when at least that many levels are present). -/
theorem resolveGo_iterWrap : ∀ (fuel k : Nat), fuel ≤ k →
    resolveGo fuel (Json.str (Nat.iterate wrapQ k "0")) =
      Json.str (Nat.iterate wrapQ (k - fuel) "0") := by
  intro fuel
  induction fuel with
  | zero =>
    intro k _
    simp [resolveGo]
  | succ n ih =>
    intro k hk
    match k, hk with
    | k + 1, hk =>
      have hW : Nat.iterate wrapQ (k + 1) "0" = wrapQ (Nat.iterate wrapQ k "0") :=
        Function.iterate_succ_apply' wrapQ k "0"
      rw [hW]
      have ht := tryParseString_wrapQ _ (clean_iterWrap k)
      rw [show resolveGo (n + 1) (Json.str (wrapQ (Nat.iterate wrapQ k "0"))) =
            resolveGo n (Json.str (Nat.iterate wrapQ k "0")) by
          simp [resolveGo, ht, Json.isNull]]
      rw [ih k (Nat.le_of_succ_le_succ hk)]
      have harith : k - n = k + 1 - (n + 1) := by omega
      rw [harith]

-- ── C2: idempotence of the Value Resolver ───────────────────────────────────

/-- C2 counterexample: on a string carrying seven levels of nested JSON string
encoding, `resolveValue` exhausts its six-parse budget and returns a string
that still parses, so a second application resolves strictly further —
idempotence fails. -/
theorem c2_counterexample :
    resolveValue (resolveValue (Json.str (Nat.iterate wrapQ 7 "0")) 0) 0 ≠
      resolveValue (Json.str (Nat.iterate wrapQ 7 "0")) 0 := by
  have h1 : resolveValue (Json.str (Nat.iterate wrapQ 7 "0")) 0 =
      Json.str (Nat.iterate wrapQ 1 "0") := by
    unfold resolveValue
    exact resolveGo_iterWrap 6 7 (by omega)
  have h2 : resolveValue (Json.str (Nat.iterate wrapQ 1 "0")) 0 = Json.num 0 0 := rfl
  rw [h1, h2]
  exact fun h => Json.noConfusion h

/-- C2 (amended): the Value Resolver is idempotent on every input whose
resolution does not stop at the depth guard with a still-parseable string —
that is, whenever `resolveValue x` is a non-string, or a string that
`tryParseString` no longer parses, a second resolution is the identity. -/
theorem c2_resolve_idempotent (x : Json)
    (h : ∀ s, resolveValue x 0 = Json.str s → (tryParseString s).isNull = true) :
    resolveValue (resolveValue x 0) 0 = resolveValue x 0 := by
  cases hy : resolveValue x 0 with
  | str s =>
    have hn := h s hy
    simp [resolveValue, resolveGo, hn]
  | null => rfl
  | bool b => rfl
  | num m e => rfl
  | arr l => rfl
  | obj kvs => rfl

/-- C2 witness: a plain unparseable string is a fixed point. -/
theorem c2_witness :
    resolveValue (resolveValue (Json.str "hello") 0) 0 = resolveValue (Json.str "hello") 0 :=
  c2_resolve_idempotent (Json.str "hello") (by
    intro s h
    have h2 : Json.str "hello" = Json.str s := h
    injection h2 with h3
    rw [← h3]
    rfl)

-- ── C5: depth bound of the Value Resolver ───────────────────────────────────

/-- C5: the Value Resolver is total (it is a Lean function), the `depth > 5`
guard returns the value unchanged, and a string with ten levels of nested
JSON string encoding resolves only six levels, leaving a partially-resolved
string with four encoding levels. -/
theorem c5_depth_guard :
    (∀ (v : Json) (d : Nat), 5 < d → resolveValue v d = v) ∧
      resolveValue (Json.str (Nat.iterate wrapQ 10 "0")) 0 =
        Json.str (Nat.iterate wrapQ 4 "0") := by
  constructor
  · intro v d h
    unfold resolveValue
    have h0 : 6 - d = 0 := by omega
    rw [h0]
    simp [resolveGo]
  · unfold resolveValue
    exact resolveGo_iterWrap 6 10 (by omega)

/-- C5 witness: the guard instantiated at depth 6. -/
theorem c5_witness : resolveValue (Json.str "leftover") 6 = Json.str "leftover" :=
  c5_depth_guard.1 (Json.str "leftover") 6 (by omega)

-- ── C10: a successful parse yielding JSON null is treated as failure ────────

/-- C10: when `JSON.parse` of the trimmed string succeeds but yields JSON
`null`, the Value Resolver's `parsed !== null` test reads that as a parse
failure and returns the original string unchanged (at any depth). -/
theorem c10_null_parse (s : String) (d : Nat)
    (h : jsonParse (jsTrim s) = some Json.null) :
    resolveValue (Json.str s) d = Json.str s := by
  have hne : s ≠ "" := by
    intro he
    subst he
    have h2 : (none : Option Json) = some Json.null := h
    exact Option.noConfusion h2
  have ht : tryParseString s = Json.null := by
    unfold tryParseString
    rw [if_neg hne]
    simp only [h]
  unfold resolveValue
  cases h6 : 6 - d with
  | zero => rfl
  | succ k => simp [resolveGo, ht, Json.isNull]

/-- C10 witness: the literal string `" null "` is returned unchanged. -/
theorem c10_witness : resolveValue (Json.str " null ") 0 = Json.str " null " :=
  c10_null_parse " null " 0 rfl

-- ── C6: the array branch of the Brand Extractor ─────────────────────────────

/-- C6: within the depth guard, `findBrandsInObject` on an array returns the
array itself exactly when it is non-empty and its first element is an object
containing the key `brand_name`, and `null` for every other array. -/
theorem c6_array_branch (l : List Json) (d : Nat) (h : d ≤ 4) :
    findBrandsInObject (Json.arr l) d =
        .ok (if firstHasBrandName l then some l else none) ∧
      (firstHasBrandName l = true ↔
        ∃ kvs rest, l = Json.obj kvs :: rest ∧ (lookupKV kvs "brand_name").isSome = true) := by
  constructor
  · rw [findBrandsInObject_arr l d h, arrCheck_eq]
  · constructor
    · intro hb
      cases l with
      | nil => simp [firstHasBrandName] at hb
      | cons f rest =>
        cases f <;> simp [firstHasBrandName] at hb
        case obj kvs => exact ⟨kvs, rest, rfl, hb⟩
    · rintro ⟨kvs, rest, rfl, hk⟩
      simp [firstHasBrandName, hk]

/-- C6 witness: instantiated at depth 0 on a one-element brand array. -/
theorem c6_witness :
    findBrandsInObject (Json.arr [Json.obj [("brand_name", Json.str "Nike")]]) 0 =
      .ok (if firstHasBrandName [Json.obj [("brand_name", Json.str "Nike")]]
           then some [Json.obj [("brand_name", Json.str "Nike")]] else none) :=
  (c6_array_branch [Json.obj [("brand_name", Json.str "Nike")]] 0 (by omega)).1

-- ── C7: totality and status derivation of the Schema Mapper ─────────────────

/-- C7 counterexample: the Schema Mapper is not total — a numeric `confidence`
makes `confidence?.toLowerCase()` throw a `TypeError` (modelled as
`Except.error`), because optional chaining only guards null/undefined. -/
theorem c7_counterexample :
    mapChatGPTResultE (Json.obj [("confidence", Json.num 5 0)]) = .error () := rfl

/-- C7 (amended): the Schema Mapper is total on every input whose
`confidence` field is a string or nullish, and there sets `status` to
`"Complete"` exactly when `confidence` lowercases to `"verified"` (else
`"Partial"`); on any other `confidence` it throws. -/
theorem c7_status (r : Json) :
    (r.getField "confidence" = Json.null →
      ∃ out, mapChatGPTResultE r = .ok out ∧ out.getField "status" = Json.str "Partial") ∧
    (∀ s, r.getField "confidence" = Json.str s →
      ∃ out, mapChatGPTResultE r = .ok out ∧
        out.getField "status" =
          Json.str (if jsToLower s = "verified" then "Complete" else "Partial")) ∧
    ((∀ s, r.getField "confidence" ≠ Json.str s) → r.getField "confidence" ≠ Json.null →
      mapChatGPTResultE r = .error ()) := by
  refine ⟨?_, ?_, ?_⟩
  · intro hc
    unfold mapChatGPTResultE
    rw [hc]
    exact ⟨_, rfl, rfl⟩
  · intro s hc
    unfold mapChatGPTResultE
    rw [hc]
    exact ⟨_, rfl, rfl⟩
  · intro hstr hnull
    unfold mapChatGPTResultE
    cases hc : r.getField "confidence" with
    | null => exact absurd hc hnull
    | str s => exact absurd hc (hstr s)
    | bool b => rfl
    | num m e => rfl
    | arr l => rfl
    | obj kvs => rfl

/-- C7 witness: uppercase `"VERIFIED"` confidence yields status
`"Complete"`. -/
theorem c7_witness :
    ∃ out, mapChatGPTResultE (Json.obj [("confidence", Json.str "VERIFIED")]) = .ok out ∧
      out.getField "status" =
        Json.str (if jsToLower "VERIFIED" = "verified" then "Complete" else "Partial") :=
  (c7_status (Json.obj [("confidence", Json.str "VERIFIED")])).2.1 "VERIFIED" rfl

-- ── C4: CSV export field rendering ──────────────────────────────────────────

/-- The `(v || '')` rendering agrees with "default a missing field to the
empty string". -/
theorem jsOrEmpty_getD (v : Option String) : jsOrEmpty v = v.getD "" := by
  cases v <;> rfl

/-- The quote-doubling fold distributes over an initial segment. -/
theorem csvEscape_foldr_init (a : List Char) (x : List Char) :
    a.foldr (fun c acc => if c = '"' then '"' :: '"' :: acc else c :: acc) x =
      a.foldr (fun c acc => if c = '"' then '"' :: '"' :: acc else c :: acc) [] ++ x := by
  induction a with
  | nil => simp
  | cons c cs ih =>
    by_cases hq : c = '"'
    · simp [hq, ih]
    · simp [hq, ih]

/-- Quote-doubling is a string homomorphism. -/
theorem csvEscape_append (s t : String) :
    csvEscape (s ++ t) = csvEscape s ++ csvEscape t := by
  cases s with
  | mk ls =>
  cases t with
  | mk lt =>
  show String.mk _ = String.mk _
  simp only [csvEscape]
  rw [show (String.mk ls ++ String.mk lt).data = ls ++ lt by simp]
  rw [List.foldr_append, csvEscape_foldr_init]

/-- C4: in the CSV export, the header line is followed by one line per Brand;
every data field is rendered as its value (with internal double quotes
doubled) wrapped in double quotes, a missing field rendering as the empty
string — never as the sentinel `"Not Found"`. -/
theorem c4_export_csv (bs : List Brand) :
    (exportCSV bs = String.intercalate "\n"
      (String.intercalate "," csvHeaders ::
        bs.map fun b => String.intercalate ","
          ((brandFields b).map fun v => "\"" ++ csvEscape (v.getD "") ++ "\""))) ∧
    (∀ s t : String, csvEscape (s ++ "\"" ++ t) = csvEscape s ++ "\"\"" ++ csvEscape t) ∧
    (∀ s : String, (∀ c ∈ s.data, c ≠ '"') → csvEscape s = s) ∧
    (none : Option String).getD "" = "" := by
  refine ⟨?_, ?_, ?_, rfl⟩
  · simp [exportCSV, jsOrEmpty_getD]
  · intro s t
    rw [csvEscape_append, csvEscape_append]
    rfl
  · intro s h
    cases s with
    | mk l =>
    show String.mk _ = String.mk l
    simp only [csvEscape]
    congr 1
    induction l with
    | nil => rfl
    | cons c cs ih =>
      have hc : c ≠ '"' := h c (List.mem_cons_self _ _)
      simp only [List.foldr_cons, if_neg hc]
      rw [ih (fun x hx => h x (List.mem_cons_of_mem _ hx))]

/-- C4 witness: a quote-free field renders as itself. -/
theorem c4_witness : csvEscape "ab" = "ab" :=
  (c4_export_csv []).2.2.1 "ab" (by decide)

-- ── C8: brand-name input parsing ────────────────────────────────────────────

/-- C8: the brand-text parser maps the spec's example to exactly
`["Nike", "Apple"]` (splitting on newlines/commas, trimming, dropping blanks
and the header token `Brand Name`), and no blank entry ever survives. -/
theorem c8_parse_brand_text :
    parseBrandText "Brand Name\nNike\n, Apple,\n" = ["Nike", "Apple"] ∧
    ∀ (t s : String), s ∈ parseBrandText t → s ≠ "" := by
  constructor
  · rfl
  · intro t s hs
    unfold parseBrandText at hs
    have hp := List.of_mem_filter hs
    intro he
    subst he
    exact absurd hp (by decide)

/-- C8 witness: `"Nike"` is in the parsed example list, hence non-blank. -/
theorem c8_witness : "Nike" ≠ "" :=
  c8_parse_brand_text.2 "Brand Name\nNike\n, Apple,\n" "Nike" (by decide)

-- ── C3: orchestrator strategy order ─────────────────────────────────────────

/-- Strategy 1: the extractor over the resolved `response.result`. -/
def strat1 (r : Json) : Except Unit (Option (List Json)) :=
  findBrandsInObject (resolveValue ((r.getField "response").getField "result") 0) 0

/-- Strategy 2: the extractor over the `response` object. -/
def strat2 (r : Json) : Except Unit (Option (List Json)) :=
  findBrandsInObject (r.getField "response") 0

/-- Strategy 3: the extractor over the whole top-level response. -/
def strat3 (r : Json) : Except Unit (Option (List Json)) :=
  findBrandsInObject r 0

/-- Strategy 4: the extractor over the resolved `raw_response`. -/
def strat4 (r : Json) : Except Unit (Option (List Json)) :=
  findBrandsInObject (resolveValue (r.getField "raw_response") 0) 0

/-- Strategy 5: the resolved `response.result` used directly as a brand
array. -/
def strat5 (r : Json) : Option (List Json) :=
  strat5core (resolveValue ((r.getField "response").getField "result") 0)

/-- The orchestrator's strategy sequence as a list, strategy 4 present only
when `raw_response` is truthy. -/
def stratList (r : Json) : List (Except Unit (Option (List Json))) :=
  [strat1 r, strat2 r, strat3 r] ++
    (if (r.getField "raw_response").truthy then [strat4 r] else []) ++
    [Except.ok (strat5 r)]

/-- First-non-empty-wins sequencing over strategy results, where a thrown
exception aborts everything with the empty list. -/
def runStrats : List (Except Unit (Option (List Json))) → List Json
  | [] => []
  | s :: rest =>
    match s with
    | .error _ => []
    | .ok o =>
      match hit o with
      | some l => l
      | none => runStrats rest

/-- C3 counterexample input: `response.result.brands` holds an
alternate-schema record with a numeric `confidence` (which makes strategy 1
throw), while the `response` object itself carries a perfectly good `brands`
array that strategy 2 would return. -/
def cexC3 : Json :=
  Json.obj [("response", Json.obj [
    ("brands", Json.arr [Json.obj [("brand_name", Json.str "Nike")]]),
    ("result", Json.obj [("brands", Json.arr [Json.obj [
      ("selected_official_website", Json.str "w"),
      ("confidence", Json.num 5 0)]])])])]

/-- C3 counterexample: on `cexC3` the orchestrator returns the empty list even
though strategy 2 finds a non-empty brand list — the first strategy's thrown
`TypeError` reaches the shared `catch`, so later strategies are never tried
and "the first non-empty list found" is not returned. -/
theorem c3_counterexample :
    parseAgentResponse cexC3 = [] ∧
    findBrandsInObject (cexC3.getField "response") 0 =
      .ok (some [Json.obj [("brand_name", Json.str "Nike")]]) ∧
    ([Json.obj [("brand_name", Json.str "Nike")]] : List Json) ≠ [] :=
  ⟨rfl, rfl, by simp⟩

/-- C3 (amended): the orchestrator runs the five strategies in the stated
order and returns the first non-empty list; a strategy that throws (possible
only through the Schema Mapper) makes the shared `catch` return the empty
list without trying the remaining strategies; exhaustion also yields the
empty list, and no exception escapes. -/
theorem c3_orchestrator (r : Json) : parseAgentResponse r = runStrats (stratList r) := by
  simp only [parseAgentResponse, parseAgentResponseE, stratList, strat1, strat2, strat3,
    strat4, strat5, List.cons_append, List.nil_append]
  cases h1 : findBrandsInObject (resolveValue ((r.getField "response").getField "result") 0) 0 with
  | error e => simp [runStrats, h1]
  | ok o1 =>
    cases hh1 : hit o1 with
    | some l => simp [runStrats, h1, hh1]
    | none =>
      cases h2 : findBrandsInObject (r.getField "response") 0 with
      | error e => simp [runStrats, h1, hh1, h2]
      | ok o2 =>
        cases hh2 : hit o2 with
        | some l => simp [runStrats, h1, hh1, h2, hh2]
        | none =>
          cases h3 : findBrandsInObject r 0 with
          | error e => simp [runStrats, h1, hh1, h2, hh2, h3]
          | ok o3 =>
            cases hh3 : hit o3 with
            | some l => simp [runStrats, h1, hh1, h2, hh2, h3, hh3]
            | none =>
              cases hr : (r.getField "raw_response").truthy with
              | true =>
                cases h4 : findBrandsInObject (resolveValue (r.getField "raw_response") 0) 0 with
                | error e => simp [runStrats, h1, hh1, h2, hh2, h3, hh3, hr, h4]
                | ok o4 =>
                  cases hh4 : hit o4 with
                  | some l => simp [runStrats, h1, hh1, h2, hh2, h3, hh3, hr, h4, hh4]
                  | none =>
                    cases h5 : strat5core
                        (resolveValue ((r.getField "response").getField "result") 0) with
                    | none =>
                      simp [runStrats, h1, hh1, h2, hh2, h3, hh3, hr, h4, hh4, h5,
                        show hit none = none from rfl]
                    | some l =>
                      have hne := (strat5core_sub _ _ h5).2
                      have hlen : l.length > 0 := List.length_pos.mpr hne
                      simp [runStrats, h1, hh1, h2, hh2, h3, hh3, hr, h4, hh4, h5,
                        show hit none = none from rfl,
                        show hit (some l) = some l from by simp [hit, hlen]]
              | false =>
                cases h5 : strat5core
                    (resolveValue ((r.getField "response").getField "result") 0) with
                | none =>
                  simp [runStrats, h1, hh1, h2, hh2, h3, hh3, hr, h5,
                    show hit none = none from rfl]
                | some l =>
                  have hne := (strat5core_sub _ _ h5).2
                  have hlen : l.length > 0 := List.length_pos.mpr hne
                  simp [runStrats, h1, hh1, h2, hh2, h3, hh3, hr, h5,
                    show hit none = none from rfl,
                    show hit (some l) = some l from by simp [hit, hlen]]

-- ── C9: redundancy of strategy 5 ────────────────────────────────────────────

/-- C9: removing strategy 5 does not change the orchestrator — whenever the
resolved `response.result` is a non-empty array whose first element carries
`brand_name`, strategy 1's extractor already returned that same array. -/
theorem c9_strategy5_redundant (r : Json) :
    parseAgentResponse r = parseAgentResponseNoS5 r := by
  simp only [parseAgentResponse, parseAgentResponseNoS5, parseAgentResponseE,
    parseAgentResponseNoS5E]
  cases h1 : findBrandsInObject (resolveValue ((r.getField "response").getField "result") 0) 0 with
  | error e => simp
  | ok o1 =>
    cases hh1 : hit o1 with
    | some l => simp [hh1]
    | none =>
      cases h2 : findBrandsInObject (r.getField "response") 0 with
      | error e => simp [hh1, h2]
      | ok o2 =>
        cases hh2 : hit o2 with
        | some l => simp [hh1, h2, hh2]
        | none =>
          cases h3 : findBrandsInObject r 0 with
          | error e => simp [hh1, h2, hh2, h3]
          | ok o3 =>
            cases hh3 : hit o3 with
            | some l => simp [hh1, h2, hh2, h3, hh3]
            | none =>
              cases hr : (r.getField "raw_response").truthy with
              | true =>
                cases h4 : findBrandsInObject (resolveValue (r.getField "raw_response") 0) 0 with
                | error e => simp [hh1, h2, hh2, h3, hh3, hr, h4]
                | ok o4 =>
                  cases hh4 : hit o4 with
                  | some l => simp [hh1, h2, hh2, h3, hh3, hr, h4, hh4]
                  | none =>
                    cases h5 : strat5core
                        (resolveValue ((r.getField "response").getField "result") 0) with
                    | none => simp [hh1, h2, hh2, h3, hh3, hr, h4, hh4, h5]
                    | some l =>
                      exfalso
                      obtain ⟨hfb, hne⟩ := strat5core_sub _ _ h5
                      rw [h1] at hfb
                      injection hfb with ho
                      subst ho
                      have hlen : l.length > 0 := List.length_pos.mpr hne
                      rw [show hit (some l) = some l from by simp [hit, hlen]] at hh1
                      exact Option.noConfusion hh1
              | false =>
                cases h5 : strat5core
                    (resolveValue ((r.getField "response").getField "result") 0) with
                | none => simp [hh1, h2, hh2, h3, hh3, hr, h5]
                | some l =>
                  exfalso
                  obtain ⟨hfb, hne⟩ := strat5core_sub _ _ h5
                  rw [h1] at hfb
                  injection hfb with ho
                  subst ho
                  have hlen : l.length > 0 := List.length_pos.mpr hne
                  rw [show hit (some l) = some l from by simp [hit, hlen]] at hh1
                  exact Option.noConfusion hh1

-- ── C1: metadata extraction ─────────────────────────────────────────────────

/-- The embedded-`text` probe location of a candidate object, when present
and admissible (a truthy plain object after parsing). -/
def textProbes (kvs : List (String × Json)) : List Json :=
  match lookupKV kvs "text" with
  | some (Json.str s) =>
    if (tryParseString s).truthy ∧ (tryParseString s).isObj then [tryParseString s] else []
  | _ => []

/-- The resolved nested-`result` probe location of a candidate object, when
present and admissible. -/
def resultProbes (kvs : List (String × Json)) : List Json :=
  match lookupKV kvs "result" with
  | some rv =>
    if (resolveValue rv 0).truthy ∧ (resolveValue rv 0).isObj then [resolveValue rv 0] else []
  | none => []

/-- All probe locations contributed by one candidate, in the extractor's
order: embedded `text` JSON, the candidate itself, the nested `result`
(non-object candidates contribute none). -/
def probesOf : Json → List Json
  | Json.obj kvs => textProbes kvs ++ (Json.obj kvs :: resultProbes kvs)
  | _ => []

/-- Probe locations of all candidates, in order. -/
def probesAll : List Json → List Json
  | [] => []
  | c :: rest => probesOf c ++ probesAll rest

/-- The first probed object whose `total_brands` is numeric. -/
def firstNumericTB : List Json → Option Json
  | [] => none
  | p :: rest => if (p.getField "total_brands").isNum then some p else firstNumericTB rest

/-- The claim's description of the Metadata Extractor: counts from the first
probe with a numeric `total_brands`, each count defaulting to 0 only when
nullish; all-zero on exhaustion. -/
def metaSpec (r : Json) : Meta :=
  match firstNumericTB (probesAll (metaCandidates r)) with
  | some p => metaOf p
  | none => ⟨.num 0 0, .num 0 0, .num 0 0⟩

/-- `firstNumericTB` scans an appended list left to right. -/
theorem firstNumericTB_append (a b : List Json) :
    firstNumericTB (a ++ b) =
      match firstNumericTB a with
      | some p => some p
      | none => firstNumericTB b := by
  induction a with
  | nil => simp [firstNumericTB]
  | cons p rest ih =>
    by_cases hp : (p.getField "total_brands").isNum = true
    · simp [firstNumericTB, hp]
    · simp [firstNumericTB, hp, ih]

/-- One candidate-loop iteration returns exactly the meta of the candidate's
first numeric probe. -/
theorem processCand_eq (c : Json) :
    processCand c = (firstNumericTB (probesOf c)).map metaOf := by
  cases c with
  | obj kvs =>
    have htail :
        (if ((Json.obj kvs).getField "total_brands").isNum then some (metaOf (Json.obj kvs))
         else
           match lookupKV kvs "result" with
           | some rv =>
             if (resolveValue rv 0).truthy ∧ (resolveValue rv 0).isObj then
               if ((resolveValue rv 0).getField "total_brands").isNum then
                 some (metaOf (resolveValue rv 0))
               else none
             else none
           | none => none) =
        (firstNumericTB (Json.obj kvs :: resultProbes kvs)).map metaOf := by
      by_cases hself : ((Json.obj kvs).getField "total_brands").isNum = true
      · simp [firstNumericTB, hself]
      · simp only [firstNumericTB, hself, if_neg, Bool.not_eq_true, if_false]
        cases hres : lookupKV kvs "result" with
        | none => simp [resultProbes, hres, firstNumericTB, hself]
        | some rv =>
          by_cases hio : ((resolveValue rv 0).truthy ∧ (resolveValue rv 0).isObj)
          · by_cases hn : ((resolveValue rv 0).getField "total_brands").isNum = true
            · simp [resultProbes, hres, hio, firstNumericTB, hself, hn]
            · simp [resultProbes, hres, hio, firstNumericTB, hself, hn]
          · simp [resultProbes, hres, hio, firstNumericTB, hself]
    simp only [processCand, probesOf]
    cases ht : lookupKV kvs "text" with
    | none =>
      rw [show textProbes kvs = [] from by simp [textProbes, ht]]
      simpa using htail
    | some tv =>
      cases tv with
      | str s =>
        by_cases hp : ((tryParseString s).truthy ∧ (tryParseString s).isObj)
        · by_cases hn : ((tryParseString s).getField "total_brands").isNum = true
          · rw [show textProbes kvs = [tryParseString s] from by simp [textProbes, ht, hp]]
            simp [firstNumericTB, hp, hn]
          · rw [show textProbes kvs = [tryParseString s] from by simp [textProbes, ht, hp]]
            simp only [List.cons_append, List.nil_append, firstNumericTB, hn, if_false,
              Bool.not_eq_true]
            simp only [hp, and_self, if_true, hn, if_false]
            simpa using htail
        · rw [show textProbes kvs = [] from by simp [textProbes, ht, hp]]
          simp only [hp, if_false]
          simpa using htail
      | null =>
        rw [show textProbes kvs = [] from by simp [textProbes, ht]]
        simpa using htail
      | bool b =>
        rw [show textProbes kvs = [] from by simp [textProbes, ht]]
        simpa using htail
      | num m e =>
        rw [show textProbes kvs = [] from by simp [textProbes, ht]]
        simpa using htail
      | arr l =>
        rw [show textProbes kvs = [] from by simp [textProbes, ht]]
        simpa using htail
      | obj kvs2 =>
        rw [show textProbes kvs = [] from by simp [textProbes, ht]]
        simpa using htail
  | null => rfl
  | bool b => rfl
  | num m e => rfl
  | str s => rfl
  | arr l => rfl

/-- The candidate loop equals first-numeric-probe selection over the
flattened probe list. -/
theorem metaLoop_eq (cands : List Json) :
    metaLoop cands =
      match firstNumericTB (probesAll cands) with
      | some p => metaOf p
      | none => ⟨.num 0 0, .num 0 0, .num 0 0⟩ := by
  induction cands with
  | nil => rfl
  | cons c rest ih =>
    simp only [metaLoop, probesAll, processCand_eq c, firstNumericTB_append]
    cases hf : firstNumericTB (probesOf c) with
    | some p => simp
    | none => simp [ih]

/-- C1 counterexample input: the resolved `response.result` carries a numeric
`total_brands` but a *string* `complete_count`. -/
def cexC1 : Json :=
  Json.obj [("response", Json.obj [("result", Json.obj [
    ("total_brands", Json.num 5 0),
    ("complete_count", Json.str "3")])])]

/-- C1 counterexample: the non-numeric `complete_count` is passed through
unchanged — the returned complete count is the string `"3"`, not 0, because
`?? 0` only replaces nullish values, not non-numeric ones. -/
theorem c1_counterexample :
    (parseResponseMeta cexC1).complete = Json.str "3" ∧
      Json.str "3" ≠ Json.num 0 0 ∧ (Json.str "3").isNum = false :=
  ⟨rfl, fun h => Json.noConfusion h, rfl⟩

/-- C1 (amended): the Metadata Extractor returns the counts read off the
first probed location (text-embedded JSON, candidate object, nested resolved
`result`, over the ordered candidates) whose `total_brands` is numeric —
`complete_count`/`partial_count` default to 0 only when null or absent, any
other non-numeric value passing through unchanged — and all-zero on
exhaustion. -/
theorem c1_meta_first_probe (r : Json) : parseResponseMeta r = metaSpec r := by
  unfold parseResponseMeta metaSpec
  exact metaLoop_eq (metaCandidates r)

-- ── Sanity checks of the embedding (spec §8 examples) ───────────────────────

/-- Beyond the depth guard the Brand Extractor returns `null` without
looking at its argument, as in the source. -/
theorem findBrandsInObject_guard (v : Json) (d : Nat) (h : 4 < d) :
    findBrandsInObject v d = .ok none := by
  unfold findBrandsInObject
  have h0 : 5 - d = 0 := by omega
  rw [h0]
  simp [findGo]

/-- Canonical-shape pass-through: a `brands` list under `response.result`
is returned unchanged. -/
theorem sanity_canonical_passthrough :
    parseAgentResponse (Json.obj [("response", Json.obj [("result", Json.obj [
      ("brands", Json.arr [Json.obj [("brand_name", Json.str "Nike")]])])])]) =
      [Json.obj [("brand_name", Json.str "Nike")]] := rfl

/-- Stringified envelope: a JSON-encoded `response.result` string still
yields the brand list. -/
theorem sanity_stringified_envelope :
    parseAgentResponse (Json.obj [("response", Json.obj [("result",
      Json.str "\x7b\"brands\":[\x7b\"brand_name\":\"Tesla\"\x7d]\x7d")])]) =
      [Json.obj [("brand_name", Json.str "Tesla")]] := rfl

/-- Exhaustion: a response with no brand-shaped data yields the empty list
and zeroed meta counts. -/
theorem sanity_exhaustion :
    parseAgentResponse (Json.obj [("success", Json.bool true)]) = [] ∧
      parseResponseMeta (Json.obj [("success", Json.bool true)]) =
        ⟨Json.num 0 0, Json.num 0 0, Json.num 0 0⟩ := ⟨rfl, rfl⟩

end BrandScraper
